import Mathlib

/-!
Verification of the loggregator-agent egress pipeline.

A shallow embedding of the egress half of the telemetry-forwarding agent:

* `pkg/egress/v2/transponder.go` — the batching Transponder: tag
  normalization (`addTags`), batch write with drop/egress metrics
  (`Transponder.write`), and the consumer loop (`Transponder.Start`).
* the protocol-negotiating sender fetcher — `SenderFetcher.Fetch`,
  `openStream` and `decrementingCloser.Close`.
* pool construction in `AppV2.initializePool` — balancer ordering and the
  randomized rotation budgets of the five connection managers.

Go `map[string]V` values are modelled as association lists with unique
keys; lookup returns the first matching entry and insertion overwrites an
existing entry in place.  Effectful operations (gRPC calls, health
registrar increments, sleeps) are modelled by explicit operation traces so
that claims about which effects happen, and in which order, are statements
about lists.
-/

namespace LoggregatorAgent

/-- A Go `map[string]V`, as an association list.  `lookupTag` returns the
first matching entry; `insertTag` overwrites in place or appends. -/
abbrev TagMap (V : Type) := List (String × V)

def lookupTag {V : Type} : TagMap V → String → Option V
  | [], _ => none
  | (k, v) :: rest, key => if k = key then some v else lookupTag rest key

def insertTag {V : Type} : TagMap V → String → V → TagMap V
  | [], key, v => [(key, v)]
  | (k, w) :: rest, key, v =>
      if k = key then (key, v) :: rest else (k, w) :: insertTag rest key v

/-- The keys of a tag map, in order. -/
def tagKeys {V : Type} (m : TagMap V) : List String := m.map Prod.fst

/-- The proto `loggregator_v2.Value`: the value of a deprecated tag.  `addTags` only
ever constructs the `text` variant (`Value_Text`); the others model the
remaining proto variants so that pre-existing deprecated tags need not be
textual. -/
inductive Value where
  | text (t : String)
  | integer (i : Int)
deriving DecidableEq, Repr

/-- The payload variant of a `loggregator_v2.Envelope` (log line, counter,
gauge, timer, event). -/
inductive EnvelopePayload where
  | log (line : String)
  | counter (name : String) (delta : Nat)
  | gauge (metrics : TagMap Int)
  | timer (name : String) (start stop : Int)
  | event (title body : String)
deriving DecidableEq, Repr

/-- A `loggregator_v2.Envelope`: timestamp, source identifier, structured
tags (`Tags`), deprecated tags (`DeprecatedTags`, where `none` models a nil
Go map) and the payload variant. -/
structure Envelope where
  timestamp : Int
  sourceId : String
  tags : TagMap String
  deprecatedTags : Option (TagMap Value)
  payload : EnvelopePayload
deriving DecidableEq, Repr

/-- First loop of `Transponder.addTags`: every structured tag is written
(overwriting) into the deprecated-tag map as a `Value_Text`. -/
def writeStructuredTags (dep : TagMap Value) (tags : TagMap String) : TagMap Value :=
  tags.foldl (fun m kv => insertTag m kv.1 (Value.text kv.2)) dep

/-- Second loop of `Transponder.addTags`: every statically configured agent
tag is added only when its key is not already present. -/
def fillStaticTags (dep : TagMap Value) (agentTags : TagMap String) : TagMap Value :=
  agentTags.foldl
    (fun m kv => if (lookupTag m kv.1).isSome then m else insertTag m kv.1 (Value.text kv.2))
    dep

/-- The function `Transponder.addTags` (transponder.go:99-124): allocate the
deprecated-tag map when nil, move structured tags over it, then fill the
gaps with the static agent tags. -/
def addTags (agentTags : TagMap String) (e : Envelope) : Envelope :=
  let dep := e.deprecatedTags.getD []
  let dep := writeStructuredTags dep e.tags
  let dep := fillStaticTags dep agentTags
  { e with deprecatedTags := some dep }

/-- The two counter metrics of the Transponder: `dropped` (direction
egress) and `egress`. -/
structure OutMetrics where
  dropped : Nat
  egress : Nat
deriving DecidableEq, Repr

/-- The function `Transponder.write` (transponder.go:82-97).  The writer is modelled by
the function `writerErr` giving the error (if any) it returns on a batch.
Returns the updated metrics, the log of batches submitted to the writer,
and the tagged batch (the Go code tags the slice in place, so the writer
receives the tagged envelopes). -/
def transponderWrite (agentTags : TagMap String) (writerErr : List Envelope → Option String)
    (m : OutMetrics) (batch : List Envelope) :
    OutMetrics × List (List Envelope) × List Envelope :=
  let tagged := batch.map (addTags agentTags)
  match writerErr tagged with
  | some _ => ({ m with dropped := m.dropped + tagged.length }, [tagged], tagged)
  | none => ({ m with egress := m.egress + tagged.length }, [tagged], tagged)

/-- One observable effect of the `Transponder.Start` consumer loop. -/
inductive LoopEffect where
  | flushBatch
  | sleepMs (ms : Nat)
  | batchWrite (e : Envelope)
deriving DecidableEq, Repr

/-- The effect trace of the `Transponder.Start` loop (transponder.go:63-80)
over a finite prefix of poll results from the nexter: an empty poll flushes
the batcher and sleeps 100 ms; a successful poll writes the envelope to the
batcher. -/
def startLoopTrace : List (Option Envelope) → List LoopEffect
  | [] => []
  | none :: rest => LoopEffect.flushBatch :: LoopEffect.sleepMs 100 :: startLoopTrace rest
  | some e :: rest => LoopEffect.batchWrite e :: startLoopTrace rest

/-- Is this effect a sleep? -/
def isSleepEffect : LoopEffect → Bool
  | LoopEffect.sleepMs _ => true
  | _ => false

/-- Extract the envelope of a batcher-write effect. -/
def batchWriteEnvelope : LoopEffect → Option Envelope
  | LoopEffect.batchWrite e => some e
  | _ => none

/-- gRPC status codes, as far as the connector inspects them. -/
inductive Code where
  | ok
  | unimplemented
  | unknown
  | other (n : Nat)
deriving DecidableEq, Repr

/-- The error value returned by `CloseAndRecv`: whether it carries a gRPC
status, and which code. -/
structure RpcError where
  fromStatus : Bool
  code : Code
  msg : String
deriving DecidableEq, Repr

/-- The function `status.FromError`: a nil error is the OK status; a status-bearing
error yields its code; any other error yields Unknown with ok = false. -/
def statusFromError : Option RpcError → Bool × Code
  | none => (true, Code.ok)
  | some e => if e.fromStatus then (true, e.code) else (false, Code.unknown)

/-- A batch-sender stream handed back by the connector: either the
current-version (`loggregator_v2` Ingress) stream or the deprecated
(`plumbing` DopplerIngress) stream, with the id of the underlying stream. -/
inductive StreamKind where
  | v2 (id : Nat)
  | legacy (id : Nat)
deriving DecidableEq, Repr

/-- The gRPC operations `openStream` performs on a connection, in order. -/
inductive ConnOp where
  | openV2
  | closeAndRecvProbe
  | openLegacy
deriving DecidableEq, Repr

/-- The behaviour of one dialed connection: the result of the n-th
current-version `BatchSender` open (`batchSenderV2 0` is the probe,
`batchSenderV2 1` the fresh stream), the error read back by
`CloseAndRecv` on the probe, and the result of the deprecated
`BatchSender` open. -/
structure ConnBehavior where
  batchSenderV2 : Nat → Except String Nat
  probeErr : Option RpcError
  batchSenderLegacy : Except String Nat

/-- The function `openStream` (part_000:59-85): open a current-version stream, terminate
it immediately via `CloseAndRecv` as a probe, branch on the status: on
Unimplemented fall back to the deprecated call and return that stream;
otherwise open and return a fresh current-version stream.  Also returns the
trace of gRPC operations performed on the connection. -/
def openStream (c : ConnBehavior) : Except String StreamKind × List ConnOp :=
  match c.batchSenderV2 0 with
  | Except.error e =>
      (Except.error ("error establishing ingestor stream to: " ++ e), [ConnOp.openV2])
  | Except.ok _probe =>
      let so := statusFromError c.probeErr
      if so.1 && so.2 == Code.unimplemented then
        match c.batchSenderLegacy with
        | Except.error e =>
            (Except.error ("error establishing ingestor stream to: " ++ e),
             [ConnOp.openV2, ConnOp.closeAndRecvProbe, ConnOp.openLegacy])
        | Except.ok sid =>
            (Except.ok (StreamKind.legacy sid),
             [ConnOp.openV2, ConnOp.closeAndRecvProbe, ConnOp.openLegacy])
      else
        match c.batchSenderV2 1 with
        | Except.error e =>
            (Except.error ("error establishing ingestor stream to: " ++ e),
             [ConnOp.openV2, ConnOp.closeAndRecvProbe, ConnOp.openV2])
        | Except.ok sid =>
            (Except.ok (StreamKind.v2 sid),
             [ConnOp.openV2, ConnOp.closeAndRecvProbe, ConnOp.openV2])

/-- One call on the health registrar. -/
inductive HealthOp where
  | inc (name : String)
  | dec (name : String)
deriving DecidableEq, Repr

/-- The outcome of `SenderFetcher.Fetch`: the connection wrapped in the
decrementing closer (if any), the stream, the error, the health-registrar
calls made, and which connections were dialed and closed during the call. -/
structure FetchResult where
  closer : Option Nat
  sender : Option StreamKind
  err : Option String
  healthOps : List HealthOp
  dialedConns : List Nat
  closedConns : List Nat
deriving DecidableEq, Repr

/-- The method `SenderFetcher.Fetch` (part_000:35-57).  `dial` is the result of
`grpc.Dial` (a connection id on success) and `behav` gives each dialed
connection's behaviour.  On dial failure nothing else happens; on stream
failure the freshly dialed connection is closed; on success the two health
counters are incremented and the connection is handed back wrapped in the
decrementing closer. -/
def Fetch (dial : Except String Nat) (behav : Nat → ConnBehavior) (addr : String) :
    FetchResult :=
  match dial with
  | Except.error e =>
      { closer := none, sender := none,
        err := some ("error dialing ingestor stream to " ++ addr ++ ": " ++ e),
        healthOps := [], dialedConns := [], closedConns := [] }
  | Except.ok conn =>
      match (openStream (behav conn)).1 with
      | Except.error e =>
          { closer := none, sender := none, err := some e,
            healthOps := [], dialedConns := [conn], closedConns := [conn] }
      | Except.ok s =>
          { closer := some conn, sender := some s, err := none,
            healthOps := [HealthOp.inc "dopplerConnections", HealthOp.inc "dopplerV2Streams"],
            dialedConns := [conn], closedConns := [] }

/-- The method `decrementingCloser.Close` (part_000:92-97): decrement both health
counters, then close the underlying connection.  Returns the
health-registrar calls and the connections closed. -/
def decrementingCloserClose (conn : Nat) : List HealthOp × List Nat :=
  ([HealthOp.dec "dopplerConnections", HealthOp.dec "dopplerV2Streams"], [conn])

/-- Modelled from the spec: the health registrar (pkg/healthendpoint, not
under src/) keeps named integer counters; `Inc` adds one to the named
counter and `Dec` subtracts one. -/
structure Health where
  counters : TagMap Int
deriving DecidableEq, Repr

def Health.get (h : Health) (name : String) : Int :=
  (lookupTag h.counters name).getD 0

def Health.incCounter (h : Health) (name : String) : Health :=
  { counters := insertTag h.counters name (h.get name + 1) }

def Health.decCounter (h : Health) (name : String) : Health :=
  { counters := insertTag h.counters name (h.get name - 1) }

def applyHealthOp (h : Health) : HealthOp → Health
  | HealthOp.inc n => h.incCounter n
  | HealthOp.dec n => h.decCounter n

def applyHealthOps (h : Health) (ops : List HealthOp) : Health :=
  ops.foldl applyHealthOp h

/-- The health-registrar calls of one successful open/close pair: the calls
made by `Fetch` followed by the calls made by closing the returned
closer. -/
def pairHealthOps (dial : Except String Nat) (behav : Nat → ConnBehavior) (addr : String) :
    List HealthOp :=
  let r := Fetch dial behav addr
  r.healthOps ++
    (match r.closer with
     | some conn => (decrementingCloserClose conn).1
     | none => [])

/-- A balancer for one logical router address (`clientpoolv2.NewBalancer`). -/
structure Balancer where
  addr : String
deriving DecidableEq, Repr

/-- The balancer list built by `AppV2.initializePool` (part_001:124-134):
when a zone-scoped router address is configured it comes first, and the
general-purpose balancer is always appended last. -/
def poolBalancers (routerAddrWithAZ routerAddr : String) : List Balancer :=
  let balancers : List Balancer := []
  let balancers :=
    if routerAddrWithAZ ≠ "" then balancers ++ [{ addr := routerAddrWithAZ }] else balancers
  balancers ++ [{ addr := routerAddr }]

/-- The configuration of one connection manager
(`clientpoolv2.NewConnManager`): the message-count rotation ceiling and the
minimum elapsed-time refresh floor, in seconds. -/
structure ConnManagerCfg where
  maxWrites : Int
  refreshIntervalSec : Int
deriving DecidableEq, Repr

/-- The five connection managers built by `AppV2.initializePool`
(part_001:161-170): each gets `100000 + rand.Int63n(1000)` as its write
ceiling (`rnd i` models the i-th independent draw) and `time.Second` as its
refresh floor. -/
def poolConnManagers (rnd : Nat → Int) : List ConnManagerCfg :=
  (List.range 5).map (fun i => { maxWrites := 100000 + rnd i, refreshIntervalSec := 1 })

/-- Fixture for the tag-normalization example: structured tags
`env ↦ prod`, no pre-existing deprecated tags. -/
def envC1 : Envelope :=
  { timestamp := 0, sourceId := "app-1", tags := [("env", "prod")],
    deprecatedTags := some [], payload := EnvelopePayload.log "hello" }

/-- Fixture with a nil deprecated-tag map. -/
def envNilDep : Envelope :=
  { timestamp := 7, sourceId := "app-2", tags := [("env", "prod")],
    deprecatedTags := none, payload := EnvelopePayload.counter "c" 1 }

/-- Fixture: a connection whose probe comes back Unimplemented and whose
legacy open succeeds. -/
def connUnimpl : ConnBehavior :=
  { batchSenderV2 := fun n => Except.ok (10 + n)
    probeErr := some { fromStatus := true, code := Code.unimplemented, msg := "unimpl" }
    batchSenderLegacy := Except.ok 42 }

/-- Fixture: a connection whose probe terminates with the OK status. -/
def connCurrent : ConnBehavior :=
  { batchSenderV2 := fun n => Except.ok (20 + n)
    probeErr := none
    batchSenderLegacy := Except.error "unused" }

/-- Fixture: a connection whose very first stream open fails. -/
def connOpenFail : ConnBehavior :=
  { batchSenderV2 := fun _ => Except.error "boom"
    probeErr := none
    batchSenderLegacy := Except.error "unused" }

/-! ## Tag-map lemmas -/

theorem lookupTag_insertTag {V : Type} (m : TagMap V) (key k : String) (v : V) :
    lookupTag (insertTag m key v) k = if key = k then some v else lookupTag m k := by
  induction m with
  | nil => simp [insertTag, lookupTag]
  | cons hd tl ih =>
      obtain ⟨k0, v0⟩ := hd
      by_cases h0 : k0 = key
      · subst h0
        by_cases hk : k0 = k <;> simp [insertTag, lookupTag, hk]
      · by_cases hk : k0 = k
        · subst hk
          have : ¬ key = k0 := fun h => h0 h.symm
          simp [insertTag, lookupTag, h0, this]
        · simp [insertTag, lookupTag, h0, hk, ih]

theorem tagKeys_cons {V : Type} (k0 : String) (v0 : V) (tl : TagMap V) :
    tagKeys ((k0, v0) :: tl) = k0 :: tagKeys tl := rfl

theorem lookupTag_eq_none_iff {V : Type} (m : TagMap V) (k : String) :
    lookupTag m k = none ↔ k ∉ tagKeys m := by
  induction m with
  | nil => simp [lookupTag, tagKeys]
  | cons hd tl ih =>
      obtain ⟨k0, v0⟩ := hd
      by_cases h0 : k0 = k
      · subst h0
        simp [lookupTag, tagKeys_cons]
      · have h0s : ¬ k = k0 := fun h => h0 h.symm
        simp [lookupTag, tagKeys_cons, h0, h0s, ih]

theorem lookupTag_isSome_of_mem {V : Type} (m : TagMap V) (k : String)
    (h : k ∈ tagKeys m) : (lookupTag m k).isSome := by
  rcases ho : lookupTag m k with _ | v
  · exact absurd h ((lookupTag_eq_none_iff m k).mp ho)
  · rfl

theorem writeStructuredTags_cons (dep : TagMap Value) (k0 : String) (v0 : String)
    (ts : TagMap String) :
    writeStructuredTags dep ((k0, v0) :: ts) =
      writeStructuredTags (insertTag dep k0 (Value.text v0)) ts := rfl

theorem lookupTag_writeStructuredTags_of_not_mem (dep : TagMap Value)
    (tags : TagMap String) (k : String) (h : k ∉ tagKeys tags) :
    lookupTag (writeStructuredTags dep tags) k = lookupTag dep k := by
  induction tags generalizing dep with
  | nil => rfl
  | cons hd tl ih =>
      obtain ⟨k0, v0⟩ := hd
      have hk0 : k0 ≠ k := by
        intro he; exact h (by simp [tagKeys, he])
      have htl : k ∉ tagKeys tl := by
        intro hm; exact h (by simp [tagKeys] at hm ⊢; exact Or.inr hm)
      rw [writeStructuredTags_cons, ih _ htl, lookupTag_insertTag]
      simp [hk0]

theorem lookupTag_writeStructuredTags_of_mem (dep : TagMap Value)
    (tags : TagMap String) (k : String) (v : String)
    (hnd : (tagKeys tags).Nodup) (h : lookupTag tags k = some v) :
    lookupTag (writeStructuredTags dep tags) k = some (Value.text v) := by
  induction tags generalizing dep with
  | nil => simp [lookupTag] at h
  | cons hd tl ih =>
      obtain ⟨k0, v0⟩ := hd
      have hnd1 : k0 ∉ tagKeys tl := by
        simp [tagKeys] at hnd ⊢
        exact fun x hx => hnd.1 x hx
      have hnd2 : (tagKeys tl).Nodup := by
        simp [tagKeys] at hnd ⊢
        exact hnd.2
      by_cases h0 : k0 = k
      · subst h0
        simp only [lookupTag, if_pos rfl] at h
        obtain rfl : v0 = v := Option.some.inj h
        rw [writeStructuredTags_cons,
          lookupTag_writeStructuredTags_of_not_mem _ _ _ hnd1,
          lookupTag_insertTag]
        simp
      · simp only [lookupTag, if_neg h0] at h
        rw [writeStructuredTags_cons]
        exact ih _ hnd2 h

theorem lookupTag_writeStructuredTags_isSome_of_mem (dep : TagMap Value)
    (tags : TagMap String) (k : String) (h : k ∈ tagKeys tags) :
    (lookupTag (writeStructuredTags dep tags) k).isSome := by
  induction tags generalizing dep with
  | nil => simp [tagKeys] at h
  | cons hd tl ih =>
      obtain ⟨k0, v0⟩ := hd
      by_cases htl : k ∈ tagKeys tl
      · rw [writeStructuredTags_cons]
        exact ih _ htl
      · have hk0 : k0 = k := by
          rw [tagKeys_cons, List.mem_cons] at h
          rcases h with h | h
          · exact h.symm
          · exact absurd h htl
        subst hk0
        rw [writeStructuredTags_cons,
          lookupTag_writeStructuredTags_of_not_mem _ _ _ htl,
          lookupTag_insertTag]
        simp

theorem lookupTag_fillStaticTags_of_some (dep : TagMap Value)
    (agentTags : TagMap String) (k : String) (v : Value)
    (h : lookupTag dep k = some v) :
    lookupTag (fillStaticTags dep agentTags) k = some v := by
  induction agentTags generalizing dep with
  | nil => exact h
  | cons hd tl ih =>
      obtain ⟨k0, v0⟩ := hd
      show lookupTag
        (fillStaticTags
          (if (lookupTag dep k0).isSome then dep
           else insertTag dep k0 (Value.text v0)) tl) k = some v
      split_ifs with hs
      · exact ih _ h
      · have hk0 : k0 ≠ k := by
          intro he; subst he; rw [h] at hs; exact hs rfl
        apply ih
        rw [lookupTag_insertTag]
        simp [hk0, h]

theorem lookupTag_fillStaticTags_of_none (dep : TagMap Value)
    (agentTags : TagMap String) (k : String)
    (h : lookupTag dep k = none) :
    lookupTag (fillStaticTags dep agentTags) k =
      (lookupTag agentTags k).map Value.text := by
  induction agentTags generalizing dep with
  | nil => simpa [fillStaticTags, lookupTag]
  | cons hd tl ih =>
      obtain ⟨k0, v0⟩ := hd
      show lookupTag
        (fillStaticTags
          (if (lookupTag dep k0).isSome then dep
           else insertTag dep k0 (Value.text v0)) tl) k = _
      split_ifs with hs
      · have hk0 : k0 ≠ k := by
          intro he; subst he; rw [h] at hs; simp at hs
        rw [ih _ h]
        simp [lookupTag, hk0]
      · by_cases hk0 : k0 = k
        · subst hk0
          have hins : lookupTag (insertTag dep k0 (Value.text v0)) k0 =
              some (Value.text v0) := by
            rw [lookupTag_insertTag]; simp
          rw [lookupTag_fillStaticTags_of_some _ _ _ _ hins]
          simp [lookupTag]
        · have hins : lookupTag (insertTag dep k0 (Value.text v0)) k = none := by
            rw [lookupTag_insertTag]; simp [hk0, h]
          rw [ih _ hins]
          simp [lookupTag, hk0]

theorem addTags_deprecatedTags (agentTags : TagMap String) (e : Envelope) :
    (addTags agentTags e).deprecatedTags =
      some (fillStaticTags
        (writeStructuredTags (e.deprecatedTags.getD []) e.tags) agentTags) := rfl

/-- C1: tag normalization.  After `addTags`, looking up any key in the
deprecated-tag map yields: the text value of the structured tag when the
key carries a structured tag (structured tags are written, overwriting);
otherwise the pre-existing deprecated value; otherwise the text value of
the static agent tag (static tags fill gaps only).  In particular, on a
key collision the structured tag's value wins over the static tag's. -/
theorem addTags_tag_normalization (agentTags : TagMap String) (e : Envelope)
    (hnd : (tagKeys e.tags).Nodup) (key : String) :
    lookupTag ((addTags agentTags e).deprecatedTags.getD []) key =
      match lookupTag e.tags key, lookupTag (e.deprecatedTags.getD []) key with
      | some v, _ => some (Value.text v)
      | none, some w => some w
      | none, none => (lookupTag agentTags key).map Value.text := by
  rw [addTags_deprecatedTags, Option.getD_some]
  rcases h1 : lookupTag e.tags key with _ | v
  · have hkm : key ∉ tagKeys e.tags := (lookupTag_eq_none_iff _ _).mp h1
    have hws : lookupTag (writeStructuredTags (e.deprecatedTags.getD []) e.tags) key =
        lookupTag (e.deprecatedTags.getD []) key :=
      lookupTag_writeStructuredTags_of_not_mem _ _ _ hkm
    rcases h2 : lookupTag (e.deprecatedTags.getD []) key with _ | w
    · rw [lookupTag_fillStaticTags_of_none _ _ _ (by rw [hws, h2])]
    · rw [lookupTag_fillStaticTags_of_some _ _ _ _ (by rw [hws, h2])]
  · rw [lookupTag_fillStaticTags_of_some _ _ _ _
      (lookupTag_writeStructuredTags_of_mem _ _ _ _ hnd h1)]

/-- Witness for C1 at the spec's example: structured tags `env ↦ prod`
with static tags `env ↦ dev, az ↦ z1` yield deprecated tags
`env ↦ prod, az ↦ z1`. -/
theorem addTags_tag_normalization_witness :
    lookupTag ((addTags [("env", "dev"), ("az", "z1")] envC1).deprecatedTags.getD [])
        "env" = some (Value.text "prod") ∧
    lookupTag ((addTags [("env", "dev"), ("az", "z1")] envC1).deprecatedTags.getD [])
        "az" = some (Value.text "z1") :=
  ⟨(addTags_tag_normalization [("env", "dev"), ("az", "z1")] envC1
      (by decide) "env").trans (by decide),
   (addTags_tag_normalization [("env", "dev"), ("az", "z1")] envC1
      (by decide) "az").trans (by decide)⟩

/-- C8: `addTags` is safe on a nil deprecated-tag map: a fresh map is
allocated when the field is nil, so the result's deprecated-tag map is
always non-nil and contains an entry for every structured tag key and for
every static agent tag key. -/
theorem addTags_nil_map_safety (agentTags : TagMap String) (e : Envelope) :
    (addTags agentTags e).deprecatedTags.isSome ∧
    ∀ key, (key ∈ tagKeys e.tags ∨ key ∈ tagKeys agentTags) →
      (lookupTag ((addTags agentTags e).deprecatedTags.getD []) key).isSome := by
  refine ⟨by rw [addTags_deprecatedTags]; rfl, fun key hk => ?_⟩
  rw [addTags_deprecatedTags, Option.getD_some]
  rcases hk with hk | hk
  · rcases Option.isSome_iff_exists.mp
      (lookupTag_writeStructuredTags_isSome_of_mem (e.deprecatedTags.getD []) _ _ hk)
      with ⟨v, hv⟩
    rw [lookupTag_fillStaticTags_of_some _ _ _ _ hv]
    rfl
  · rcases hws : lookupTag (writeStructuredTags (e.deprecatedTags.getD []) e.tags) key
      with _ | v
    · rw [lookupTag_fillStaticTags_of_none _ _ _ hws]
      rcases Option.isSome_iff_exists.mp (lookupTag_isSome_of_mem _ _ hk) with ⟨v, hv⟩
      rw [hv]
      rfl
    · rw [lookupTag_fillStaticTags_of_some _ _ _ _ hws]
      rfl

/-- Witness for C8 on an envelope whose deprecated-tag map is nil. -/
theorem addTags_nil_map_safety_witness :
    ((addTags [("az", "z1")] envNilDep).deprecatedTags.isSome = true) ∧
    (lookupTag ((addTags [("az", "z1")] envNilDep).deprecatedTags.getD [])
        "az").isSome = true :=
  ⟨(addTags_nil_map_safety [("az", "z1")] envNilDep).1,
   (addTags_nil_map_safety [("az", "z1")] envNilDep).2 "az"
     (Or.inr (by simp [tagKeys]))⟩

/-! ## Transponder write and consumer loop -/

/-- C4: flush/write outcome accounting.  `Transponder.write` submits the
batch to the writer exactly once (no retry); when the writer returns an
error the dropped metric grows by exactly the batch length and the egress
metric is unchanged, and when the writer succeeds the egress metric grows
by exactly the batch length and the dropped metric is unchanged. -/
theorem transponderWrite_outcome (agentTags : TagMap String)
    (writerErr : List Envelope → Option String) (m : OutMetrics)
    (batch : List Envelope) :
    ((transponderWrite agentTags writerErr m batch).1 =
      (match writerErr (batch.map (addTags agentTags)) with
       | some _ => { m with dropped := m.dropped + batch.length }
       | none => { m with egress := m.egress + batch.length })) ∧
    ((transponderWrite agentTags writerErr m batch).2.1 =
      [batch.map (addTags agentTags)]) := by
  rcases h : writerErr (batch.map (addTags agentTags)) with _ | e <;>
    simp [transponderWrite, h]

/-- C9: frame property of the write path.  The batch handed to the writer
is exactly the received batch with `addTags` applied elementwise (same
length, same order, and it is the one batch submitted), and tagging leaves
every envelope's timestamp, source id, structured tags and payload
unchanged. -/
theorem transponderWrite_frame (agentTags : TagMap String)
    (writerErr : List Envelope → Option String) (m : OutMetrics)
    (batch : List Envelope) :
    ((transponderWrite agentTags writerErr m batch).2.2 =
      batch.map (addTags agentTags)) ∧
    ((transponderWrite agentTags writerErr m batch).2.1 =
      [(transponderWrite agentTags writerErr m batch).2.2]) ∧
    ((transponderWrite agentTags writerErr m batch).2.2.length = batch.length) ∧
    (∀ i : Nat,
      (((transponderWrite agentTags writerErr m batch).2.2[i]?).map
          Envelope.timestamp = batch[i]?.map Envelope.timestamp) ∧
      (((transponderWrite agentTags writerErr m batch).2.2[i]?).map
          Envelope.sourceId = batch[i]?.map Envelope.sourceId) ∧
      (((transponderWrite agentTags writerErr m batch).2.2[i]?).map
          Envelope.tags = batch[i]?.map Envelope.tags) ∧
      (((transponderWrite agentTags writerErr m batch).2.2[i]?).map
          Envelope.payload = batch[i]?.map Envelope.payload)) := by
  have hd : (transponderWrite agentTags writerErr m batch).2.2 =
      batch.map (addTags agentTags) := by
    rcases h : writerErr (batch.map (addTags agentTags)) with _ | e <;>
      simp [transponderWrite, h]
  have hl : (transponderWrite agentTags writerErr m batch).2.1 =
      [(transponderWrite agentTags writerErr m batch).2.2] := by
    rcases h : writerErr (batch.map (addTags agentTags)) with _ | e <;>
      simp [transponderWrite, h]
  refine ⟨hd, hl, by simp [hd], fun i => ?_⟩
  rw [hd, List.getElem?_map]
  rcases batch[i]? with _ | e <;> simp [addTags]

/-- C5: idle behaviour of the consumer loop.  Over any finite prefix of
poll results: each empty poll contributes exactly one flush immediately
followed by a 100 ms sleep, so the sleeps are exactly one `sleepMs 100` per
empty poll; each successful poll contributes exactly the batcher write of
its envelope (no sleep), and the batcher receives the polled envelopes in
order. -/
theorem startLoop_idle_behaviour (polls : List (Option Envelope)) :
    ((startLoopTrace polls).filter isSleepEffect =
      List.replicate (polls.countP (fun p => p.isNone)) (LoopEffect.sleepMs 100)) ∧
    ((startLoopTrace polls).filterMap batchWriteEnvelope = polls.filterMap id) ∧
    (startLoopTrace (none :: polls) =
      LoopEffect.flushBatch :: LoopEffect.sleepMs 100 :: startLoopTrace polls) ∧
    (∀ e, startLoopTrace (some e :: polls) =
      LoopEffect.batchWrite e :: startLoopTrace polls) := by
  refine ⟨?_, ?_, rfl, fun e => rfl⟩
  · induction polls with
    | nil => rfl
    | cons hd tl ih =>
        rcases hd with _ | e <;>
          simp [startLoopTrace, isSleepEffect, List.countP_cons, ih,
            List.replicate_succ]
  · induction polls with
    | nil => rfl
    | cons hd tl ih =>
        rcases hd with _ | e <;> simp [startLoopTrace, batchWriteEnvelope, ih]

/-! ## Protocol negotiation -/

/-- C2: protocol negotiation in `openStream`.  After the probe stream is
opened and terminated: if the probe status is Unimplemented, the deprecated
call is opened and its stream returned, and the current-version call is
never retried on this connection (it appears exactly once in the operation
trace, for the probe); for any other probe status the probe stream is
discarded and a fresh current-version stream (the second open) is
returned. -/
theorem openStream_negotiation (c : ConnBehavior) (pid : Nat)
    (hp : c.batchSenderV2 0 = Except.ok pid) :
    (((statusFromError c.probeErr).1 = true ∧
        (statusFromError c.probeErr).2 = Code.unimplemented) →
      ((openStream c).2 =
        [ConnOp.openV2, ConnOp.closeAndRecvProbe, ConnOp.openLegacy]) ∧
      ((openStream c).2.count ConnOp.openV2 = 1) ∧
      (∀ sid, c.batchSenderLegacy = Except.ok sid →
        (openStream c).1 = Except.ok (StreamKind.legacy sid))) ∧
    ((¬ ((statusFromError c.probeErr).1 = true ∧
        (statusFromError c.probeErr).2 = Code.unimplemented)) →
      ((openStream c).2 =
        [ConnOp.openV2, ConnOp.closeAndRecvProbe, ConnOp.openV2]) ∧
      (∀ sid, c.batchSenderV2 1 = Except.ok sid →
        (openStream c).1 = Except.ok (StreamKind.v2 sid))) := by
  constructor
  · rintro ⟨h1, h2⟩
    have hb : ((statusFromError c.probeErr).1 &&
        ((statusFromError c.probeErr).2 == Code.unimplemented)) = true := by
      simp [h1, h2]
    have htr : (openStream c).2 =
        [ConnOp.openV2, ConnOp.closeAndRecvProbe, ConnOp.openLegacy] := by
      rcases hl : c.batchSenderLegacy with e | sid0 <;>
        simp [openStream, hp, hb, hl]
    refine ⟨htr, by rw [htr]; decide, fun sid hsid => ?_⟩
    simp [openStream, hp, hb, hsid]
  · intro hn
    have hb : ((statusFromError c.probeErr).1 &&
        ((statusFromError c.probeErr).2 == Code.unimplemented)) = false := by
      rcases hbool : ((statusFromError c.probeErr).1 &&
          ((statusFromError c.probeErr).2 == Code.unimplemented)) with _ | _
      · rfl
      · exact absurd (by simpa [Bool.and_eq_true, beq_iff_eq] using hbool) hn
    have htr : (openStream c).2 =
        [ConnOp.openV2, ConnOp.closeAndRecvProbe, ConnOp.openV2] := by
      rcases hv : c.batchSenderV2 1 with e | sid0 <;>
        simp [openStream, hp, hb, hv]
    refine ⟨htr, fun sid hsid => ?_⟩
    simp [openStream, hp, hb, hsid]

/-- Witness for C2: on a connection answering the probe with Unimplemented,
the legacy stream is returned and the current-version call appears exactly
once in the trace; on a connection answering OK, the fresh current-version
stream (second open, id 21) is returned. -/
theorem openStream_negotiation_witness :
    ((openStream connUnimpl).1 = Except.ok (StreamKind.legacy 42)) ∧
    ((openStream connUnimpl).2.count ConnOp.openV2 = 1) ∧
    ((openStream connCurrent).1 = Except.ok (StreamKind.v2 21)) := by
  have hu := openStream_negotiation connUnimpl 10 rfl
  have hc := openStream_negotiation connCurrent 20 rfl
  have hcond : (statusFromError connUnimpl.probeErr).1 = true ∧
      (statusFromError connUnimpl.probeErr).2 = Code.unimplemented := by decide
  have hncond : ¬ ((statusFromError connCurrent.probeErr).1 = true ∧
      (statusFromError connCurrent.probeErr).2 = Code.unimplemented) := by decide
  exact ⟨(hu.1 hcond).2.2 42 rfl, (hu.1 hcond).2.1, (hc.2 hncond).2 21 rfl⟩

/-! ## Health accounting -/

theorem Health.get_incCounter (h : Health) (n name : String) :
    (h.incCounter n).get name =
      if n = name then h.get name + 1 else h.get name := by
  show (lookupTag (insertTag h.counters n (h.get n + 1)) name).getD 0 = _
  rw [lookupTag_insertTag]
  split_ifs with hn
  · subst hn; rfl
  · rfl

theorem Health.get_decCounter (h : Health) (n name : String) :
    (h.decCounter n).get name =
      if n = name then h.get name - 1 else h.get name := by
  show (lookupTag (insertTag h.counters n (h.get n - 1)) name).getD 0 = _
  rw [lookupTag_insertTag]
  split_ifs with hn
  · subst hn; rfl
  · rfl

theorem applyHealthOps_append (h : Health) (a b : List HealthOp) :
    applyHealthOps h (a ++ b) = applyHealthOps (applyHealthOps h a) b := by
  simp [applyHealthOps, List.foldl_append]

theorem get_applyHealthOps_openClosePair (h : Health) (name : String) :
    (applyHealthOps h
      [HealthOp.inc "dopplerConnections", HealthOp.inc "dopplerV2Streams",
       HealthOp.dec "dopplerConnections", HealthOp.dec "dopplerV2Streams"]).get name
      = h.get name := by
  simp only [applyHealthOps, List.foldl_cons, List.foldl_nil, applyHealthOp]
  simp only [Health.get_decCounter, Health.get_incCounter]
  split_ifs <;> omega

theorem pairHealthOps_of_success (dial : Except String Nat)
    (behav : Nat → ConnBehavior) (addr : String) (conn : Nat) (s : StreamKind)
    (hd : dial = Except.ok conn) (hs : (openStream (behav conn)).1 = Except.ok s) :
    pairHealthOps dial behav addr =
      [HealthOp.inc "dopplerConnections", HealthOp.inc "dopplerV2Streams",
       HealthOp.dec "dopplerConnections", HealthOp.dec "dopplerV2Streams"] := by
  simp [pairHealthOps, Fetch, hd, hs, decrementingCloserClose]

theorem Fetch_err_none_elim (dial : Except String Nat)
    (behav : Nat → ConnBehavior) (addr : String)
    (h : (Fetch dial behav addr).err = none) :
    ∃ conn s, dial = Except.ok conn ∧ (openStream (behav conn)).1 = Except.ok s := by
  rcases hd : dial with e | conn
  · rw [hd] at h; simp [Fetch] at h
  · rcases hs : (openStream (behav conn)).1 with e | s
    · rw [hd] at h; simp [Fetch, hs] at h
    · exact ⟨conn, s, rfl, hs⟩

/-- C3: health-counter balance.  A fully successful `Fetch` makes exactly
one increment of each of `dopplerConnections` and `dopplerV2Streams` (and
nothing else); closing the returned closer makes exactly one decrement of
each; a failed stream open makes no health-registrar call at all; and over
any sequence of successful open/close pairs, every health counter returns
to its pre-sequence value. -/
theorem health_counter_balance :
    (∀ (dial : Except String Nat) (behav : Nat → ConnBehavior) (addr : String)
       (conn : Nat) (s : StreamKind), dial = Except.ok conn →
       (openStream (behav conn)).1 = Except.ok s →
       (Fetch dial behav addr).healthOps =
         [HealthOp.inc "dopplerConnections", HealthOp.inc "dopplerV2Streams"]) ∧
    (∀ conn : Nat, (decrementingCloserClose conn).1 =
       [HealthOp.dec "dopplerConnections", HealthOp.dec "dopplerV2Streams"]) ∧
    (∀ (dial : Except String Nat) (behav : Nat → ConnBehavior) (addr : String)
       (conn : Nat) (e : String), dial = Except.ok conn →
       (openStream (behav conn)).1 = Except.error e →
       (Fetch dial behav addr).healthOps = []) ∧
    (∀ (calls : List ((Except String Nat) × (Nat → ConnBehavior) × String)),
       (∀ c ∈ calls, (Fetch c.1 c.2.1 c.2.2).err = none) →
       ∀ (h : Health) (name : String),
         (applyHealthOps h
           ((calls.map (fun c => pairHealthOps c.1 c.2.1 c.2.2)).flatten)).get name
           = h.get name) := by
  refine ⟨?_, fun conn => rfl, ?_, ?_⟩
  · rintro dial behav addr conn s rfl hs
    simp [Fetch, hs]
  · rintro dial behav addr conn e rfl hs
    simp [Fetch, hs]
  · intro calls
    induction calls with
    | nil => intro _ h name; rfl
    | cons c cs ih =>
        intro hok h name
        obtain ⟨conn, s, hd, hs⟩ :=
          Fetch_err_none_elim c.1 c.2.1 c.2.2 (hok c (List.mem_cons_self c cs))
        have hok2 : ∀ c2 ∈ cs, (Fetch c2.1 c2.2.1 c2.2.2).err = none :=
          fun c2 hc2 => hok c2 (List.mem_cons_of_mem c hc2)
        simp only [List.map_cons, List.flatten_cons]
        rw [pairHealthOps_of_success c.1 c.2.1 c.2.2 conn s hd hs,
          applyHealthOps_append, ih hok2, get_applyHealthOps_openClosePair]

/-- Witness for C3: one successful open/close pair on `connCurrent` leaves
the `dopplerConnections` counter where it started. -/
theorem health_counter_balance_witness :
    (applyHealthOps ({ counters := [] } : Health)
      ((([((Except.ok 0 : Except String Nat),
           fun _ => connCurrent, "doppler")]).map
          (fun c => pairHealthOps c.1 c.2.1 c.2.2)).flatten)).get "dopplerConnections"
      = Health.get ({ counters := [] } : Health) "dopplerConnections" :=
  health_counter_balance.2.2.2
    [((Except.ok 0 : Except String Nat), fun _ => connCurrent, "doppler")]
    (by
      intro c hc
      rw [List.mem_singleton] at hc
      subst hc
      rfl)
    ({ counters := [] } : Health) "dopplerConnections"

/-- C10: fetch error atomicity.  If dialing fails, `Fetch` returns no
closer, no sender and a non-nil error, makes no health-registrar call and
dials nothing; if dialing succeeds but the stream open fails, `Fetch`
closes the just-dialed connection (every dialed connection is closed, so
nothing leaks), returns no closer, no sender and a non-nil error, and makes
no health-registrar call. -/
theorem Fetch_error_atomicity (dial : Except String Nat)
    (behav : Nat → ConnBehavior) (addr : String) :
    (∀ e, dial = Except.error e →
      (Fetch dial behav addr).closer = none ∧
      (Fetch dial behav addr).sender = none ∧
      (Fetch dial behav addr).err.isSome ∧
      (Fetch dial behav addr).healthOps = [] ∧
      (Fetch dial behav addr).dialedConns = [] ∧
      (Fetch dial behav addr).closedConns = []) ∧
    (∀ conn e, dial = Except.ok conn →
      (openStream (behav conn)).1 = Except.error e →
      (Fetch dial behav addr).closer = none ∧
      (Fetch dial behav addr).sender = none ∧
      (Fetch dial behav addr).err.isSome ∧
      (Fetch dial behav addr).healthOps = [] ∧
      (Fetch dial behav addr).dialedConns = [conn] ∧
      (Fetch dial behav addr).closedConns = [conn]) := by
  constructor
  · rintro e rfl
    simp [Fetch]
  · rintro conn e rfl hs
    simp [Fetch, hs]

/-- Witness for C10: a failed dial and a failed stream open, each with
empty health trace, and the failed open closing the dialed connection. -/
theorem Fetch_error_atomicity_witness :
    ((Fetch (Except.ok 3) (fun _ => connOpenFail) "doppler").healthOps = []) ∧
    ((Fetch (Except.ok 3) (fun _ => connOpenFail) "doppler").closedConns = [3]) ∧
    ((Fetch (Except.error "refused") (fun _ => connOpenFail) "doppler").healthOps
      = []) := by
  have h1 := (Fetch_error_atomicity (Except.ok 3) (fun _ => connOpenFail) "doppler").2
    3 "error establishing ingestor stream to: boom" rfl rfl
  have h2 := (Fetch_error_atomicity (Except.error "refused") (fun _ => connOpenFail)
    "doppler").1 "refused" rfl
  exact ⟨h1.2.2.2.1, h1.2.2.2.2.2, h2.2.2.2.1⟩

/-! ## Pool construction -/

/-- C6: zone-preferred balancing.  With a non-empty zone-scoped router
address the pool's balancer list is the zone-scoped balancer followed by
the general-purpose one (zone tried first, general always present as
fallback); with no zone-scoped address only the general-purpose balancer is
built. -/
theorem poolBalancers_zone_preference (azAddr genAddr : String) :
    (azAddr ≠ "" → poolBalancers azAddr genAddr =
      [{ addr := azAddr }, { addr := genAddr }]) ∧
    (azAddr = "" → poolBalancers azAddr genAddr = [{ addr := genAddr }]) := by
  constructor
  · intro h
    simp [poolBalancers, h]
  · intro h
    simp [poolBalancers, h]

/-- Witness for C6 at a concrete zone-scoped address and at the empty
address. -/
theorem poolBalancers_zone_preference_witness :
    (poolBalancers "z1.router" "router" =
      [{ addr := "z1.router" }, { addr := "router" }]) ∧
    (poolBalancers "" "router" = [{ addr := "router" }]) :=
  ⟨(poolBalancers_zone_preference "z1.router" "router").1 (by decide),
   (poolBalancers_zone_preference "" "router").2 rfl⟩

/-- C7: randomized rotation budget.  The pool gets exactly five connection
managers; given that each independent draw of `rand.Int63n(1000)` lies in
`[0, 1000)`, every manager's message-count ceiling is `100000 +` its draw,
hence lies in `[100000, 100999]`, and every manager's elapsed-time refresh
floor is one second. -/
theorem poolConnManagers_rotation_budget (rnd : Nat → Int)
    (hr : ∀ i, 0 ≤ rnd i ∧ rnd i < 1000) :
    ((poolConnManagers rnd).length = 5) ∧
    (∀ cfg ∈ poolConnManagers rnd,
      100000 ≤ cfg.maxWrites ∧ cfg.maxWrites ≤ 100999 ∧
        cfg.refreshIntervalSec = 1) := by
  refine ⟨by simp [poolConnManagers], ?_⟩
  intro cfg hcfg
  simp only [poolConnManagers, List.mem_map, List.mem_range] at hcfg
  obtain ⟨i, hi, rfl⟩ := hcfg
  obtain ⟨h1, h2⟩ := hr i
  refine ⟨?_, ?_, rfl⟩
  · show (100000 : Int) ≤ 100000 + rnd i
    omega
  · show (100000 : Int) + rnd i ≤ 100999
    omega

/-- Witness for C7 with every draw equal to 500. -/
theorem poolConnManagers_rotation_budget_witness :
    ((poolConnManagers (fun _ => 500)).length = 5) ∧
    (100000 ≤
      ({ maxWrites := 100000 + 500, refreshIntervalSec := 1 } : ConnManagerCfg).maxWrites) := by
  have h := poolConnManagers_rotation_budget (fun _ => 500)
    (fun i => by norm_num)
  refine ⟨h.1, (h.2 _ ?_).1⟩
  simp only [poolConnManagers, List.mem_map, List.mem_range]
  exact ⟨0, by norm_num, by norm_num⟩

end LoggregatorAgent
